import Mathlib

/-!
Verification of the dayTradingAI decision-and-execution pipeline.

The repository ships a React frontend (embedded below from
`frontend/src/components/NewsFeed.jsx` and `TransactionHistory.jsx`) and a
Python backend whose modules (`trader.py`, `ai_engine.py`, `quant_engine.py`,
`signal_generator.py`, `main.py`) are described by the specification and the
README but are not present in the source tree; those parts are modelled from
the specification, as marked on each definition.

All money and score arithmetic is over `ℚ`; share counts in the execution
scheduler are over `ℕ`.
-/

namespace DayTradingAI

/-! ## Portfolio ledger (spec §3, §4.8) -/

/-- Modelled from the spec: trade side, `side ∈ \x7bBUY, SELL\x7d` (§3 Trade). -/
inductive Side
  | BUY
  | SELL
deriving DecidableEq, Repr

/-- Modelled from the spec: a Trade record (§3) restricted to the fields the
ledger consults; `id`, `timestamp` and the derived `realizedPnL` do not affect
cash/holdings arithmetic. -/
structure Trade where
  ticker : String
  side : Side
  price : ℚ
  quantity : ℚ
deriving DecidableEq, Repr

/-- Modelled from the spec: one holding, `ticker → \x7bquantity, averageCost\x7d` (§3). -/
structure Holding where
  quantity : ℚ
  averageCost : ℚ
deriving DecidableEq, Repr

/-- Modelled from the spec: the Portfolio, cash plus a ticker-indexed holdings
map (§3), the map embedded as an association list. -/
structure Portfolio where
  cashBalance : ℚ
  holdings : List (String × Holding)
deriving DecidableEq, Repr

/-- Modelled from the spec: ledger-level rejection reasons (§7),
`InsufficientHoldings` for an oversized SELL, `InsufficientCash` for an
unaffordable BUY. -/
inductive RejectReason
  | InsufficientHoldings
  | InsufficientCash
deriving DecidableEq, Repr

/-- Holding looked up by ticker; a ticker never traded reads as the zero
holding. -/
def lookupHolding : List (String × Holding) → String → Holding
  | [], _ => { quantity := 0, averageCost := 0 }
  | (k, v) :: rest, tk => if k = tk then v else lookupHolding rest tk

/-- Replace the holding stored under a ticker, appending when absent. -/
def setHolding : List (String × Holding) → String → Holding → List (String × Holding)
  | [], tk, h => [(tk, h)]
  | (k, v) :: rest, tk, h =>
      if k = tk then (tk, h) :: rest else (k, v) :: setHolding rest tk h

/-- Modelled from the spec: applying a BUY recomputes `averageCost` as a
weighted average and increases the quantity (§4.8). -/
def buyHolding (h : Holding) (t : Trade) : Holding :=
  { quantity := h.quantity + t.quantity,
    averageCost :=
      if h.quantity + t.quantity = 0 then 0
      else (h.quantity * h.averageCost + t.price * t.quantity) / (h.quantity + t.quantity) }

/-- Modelled from the spec: applying a SELL decreases the quantity and keeps
`averageCost`; `realizedPnL = (price − averageCost) × qty` is derived and does
not feed back into the state (§4.8). -/
def sellHolding (h : Holding) (t : Trade) : Holding :=
  { quantity := h.quantity - t.quantity, averageCost := h.averageCost }

/-- Modelled from the spec: `apply(Trade) -> Portfolio | RejectedTrade`
(§4.8).  A BUY whose cost exceeds the cash balance fails with
`InsufficientCash`; a SELL whose quantity exceeds the current holding fails
with `InsufficientHoldings`; otherwise the new portfolio is returned. -/
def applyTrade (p : Portfolio) (t : Trade) : Except RejectReason Portfolio :=
  match t.side with
  | Side.BUY =>
      if p.cashBalance < t.price * t.quantity then
        Except.error RejectReason.InsufficientCash
      else
        Except.ok
          { cashBalance := p.cashBalance - t.price * t.quantity,
            holdings :=
              setHolding p.holdings t.ticker (buyHolding (lookupHolding p.holdings t.ticker) t) }
  | Side.SELL =>
      if (lookupHolding p.holdings t.ticker).quantity < t.quantity then
        Except.error RejectReason.InsufficientHoldings
      else
        Except.ok
          { cashBalance := p.cashBalance + t.price * t.quantity,
            holdings :=
              setHolding p.holdings t.ticker (sellHolding (lookupHolding p.holdings t.ticker) t) }

/-- One application step on the portfolio alone: a rejected trade leaves the
state unchanged. -/
def stepTrade (p : Portfolio) (t : Trade) : Portfolio :=
  match applyTrade p t with
  | Except.ok q => q
  | Except.error _ => p

/-- Sequential application of a list of trades, rejected trades skipped. -/
def applyTrades (p : Portfolio) : List Trade → Portfolio
  | [] => p
  | t :: ts => applyTrades (stepTrade p t) ts

/-- Modelled from the spec: the ledger owns the portfolio and the append-only
trade history (§3, §4.8). -/
structure Ledger where
  portfolio : Portfolio
  history : List Trade
deriving DecidableEq, Repr

/-- Modelled from the spec: atomic ledger application (§4.8) — either the
trade is fully applied and appended to history, or it is rejected and the
ledger is returned unchanged together with the reason. -/
def ledgerApply (L : Ledger) (t : Trade) : Ledger × Option RejectReason :=
  match applyTrade L.portfolio t with
  | Except.ok q => ({ portfolio := q, history := L.history ++ [t] }, none)
  | Except.error e => (L, some e)

/-- The ledger invariant of §3: nonnegative cash and nonnegative holding
quantities. -/
def PortfolioInv (p : Portfolio) : Prop :=
  0 ≤ p.cashBalance ∧ ∀ e ∈ p.holdings, 0 ≤ e.2.quantity

/-- A well-formed trade carries a nonnegative price and quantity. -/
def WfTrade (t : Trade) : Prop :=
  0 ≤ t.price ∧ 0 ≤ t.quantity

theorem lookupHolding_quantity_nonneg (hs : List (String × Holding)) (tk : String) :
    (∀ e ∈ hs, 0 ≤ e.2.quantity) → 0 ≤ (lookupHolding hs tk).quantity := by
  induction hs with
  | nil => intro _; simp [lookupHolding]
  | cons e rest ih =>
      intro h
      obtain ⟨k, v⟩ := e
      simp only [lookupHolding]
      split
      · exact h (k, v) (by simp)
      · exact ih (fun e he => h e (List.mem_cons_of_mem _ he))

theorem setHolding_quantity_nonneg (hs : List (String × Holding)) (tk : String) (h : Holding) :
    (∀ e ∈ hs, 0 ≤ e.2.quantity) → 0 ≤ h.quantity →
    ∀ e ∈ setHolding hs tk h, 0 ≤ e.2.quantity := by
  induction hs with
  | nil =>
      intro _ hq e he
      simp only [setHolding, List.mem_singleton] at he
      simpa [he] using hq
  | cons kv rest ih =>
      intro hall hq e he
      obtain ⟨k, v⟩ := kv
      simp only [setHolding] at he
      split at he
      · rcases List.mem_cons.mp he with h1 | h2
        · simpa [h1] using hq
        · exact hall e (List.mem_cons_of_mem _ h2)
      · rcases List.mem_cons.mp he with h1 | h2
        · exact hall e (by simp [h1])
        · exact ih (fun e he => hall e (List.mem_cons_of_mem _ he)) hq e h2

theorem applyTrade_ok_inv (p : Portfolio) (t : Trade) (q : Portfolio)
    (hp : PortfolioInv p) (ht : WfTrade t)
    (h : applyTrade p t = Except.ok q) : PortfolioInv q := by
  obtain ⟨hcash, hhold⟩ := hp
  obtain ⟨hprice, hqty⟩ := ht
  obtain ⟨tk, side, price, qty⟩ := t
  cases side with
  | BUY =>
      simp only [applyTrade] at h
      split at h
      · simp at h
      · rename_i hguard
        push_neg at hguard
        obtain rfl := Except.ok.inj h
        refine ⟨?_, ?_⟩
        · simp only
          linarith
        · intro e he
          refine setHolding_quantity_nonneg _ _ _ hhold ?_ e he
          have h0 := lookupHolding_quantity_nonneg p.holdings tk hhold
          simp only [buyHolding] at *
          positivity
  | SELL =>
      simp only [applyTrade] at h
      split at h
      · simp at h
      · rename_i hguard
        push_neg at hguard
        obtain rfl := Except.ok.inj h
        refine ⟨?_, ?_⟩
        · simp only
          have hpq : 0 ≤ price * qty := mul_nonneg hprice hqty
          linarith
        · intro e he
          refine setHolding_quantity_nonneg _ _ _ hhold ?_ e he
          simp only [sellHolding] at *
          linarith

theorem stepTrade_preserves_inv (p : Portfolio) (t : Trade)
    (hp : PortfolioInv p) (ht : WfTrade t) : PortfolioInv (stepTrade p t) := by
  cases h : applyTrade p t with
  | ok q => simpa [stepTrade, h] using applyTrade_ok_inv p t q hp ht h
  | error r => simpa [stepTrade, h] using hp

/-- C1: for every sequence of well-formed Trade applications to a Portfolio
satisfying the ledger invariant, after each application (i.e. after every
prefix of the sequence) the cash balance and every holding quantity are still
nonnegative: no BUY takes cash below zero and no SELL takes a holding below
zero. -/
theorem portfolio_invariant_after_each_application
    (p : Portfolio) (ts : List Trade)
    (hp : PortfolioInv p) (hts : ∀ t ∈ ts, WfTrade t) (n : ℕ) :
    PortfolioInv (applyTrades p (ts.take n)) := by
  induction ts generalizing p n with
  | nil => simpa [applyTrades] using hp
  | cons t rest ih =>
      cases n with
      | zero => simpa [applyTrades] using hp
      | succ m =>
          simp only [List.take_succ_cons, applyTrades]
          exact ih (stepTrade p t)
            (stepTrade_preserves_inv p t hp (hts t (by simp)))
            (fun u hu => hts u (List.mem_cons_of_mem _ hu)) m

theorem portfolio_invariant_after_each_application_witness :
    PortfolioInv
      (applyTrades
        { cashBalance := 1000, holdings := [] }
        (([{ ticker := "XYZ", side := Side.BUY, price := 10, quantity := 5 },
           { ticker := "XYZ", side := Side.SELL, price := 12, quantity := 3 }]).take 2)) :=
  portfolio_invariant_after_each_application
    { cashBalance := 1000, holdings := [] }
    [{ ticker := "XYZ", side := Side.BUY, price := 10, quantity := 5 },
     { ticker := "XYZ", side := Side.SELL, price := 12, quantity := 3 }]
    ⟨by norm_num, by simp⟩
    (by
      intro t ht
      simp only [List.mem_cons, List.not_mem_nil, or_false] at ht
      rcases ht with h | h <;> subst h <;> exact ⟨by norm_num, by norm_num⟩)
    2

/-- C2: a SELL of quantity q against a holding of quantity h < q is rejected
with `InsufficientHoldings` and leaves the ledger (portfolio and history)
completely unchanged; moreover every `ledgerApply` is atomic — a rejection
returns the ledger unchanged, and an acceptance returns the fully applied
portfolio with the trade appended to history. -/
theorem sell_insufficient_rejected_and_atomic :
    (∀ (L : Ledger) (t : Trade), t.side = Side.SELL →
        (lookupHolding L.portfolio.holdings t.ticker).quantity < t.quantity →
        ledgerApply L t = (L, some RejectReason.InsufficientHoldings))
    ∧ (∀ (L : Ledger) (t : Trade) (e : RejectReason),
        (ledgerApply L t).2 = some e → (ledgerApply L t).1 = L)
    ∧ (∀ (L : Ledger) (t : Trade),
        (ledgerApply L t).2 = none →
        ∃ q, applyTrade L.portfolio t = Except.ok q ∧
          (ledgerApply L t).1.portfolio = q ∧
          (ledgerApply L t).1.history = L.history ++ [t]) := by
  refine ⟨?_, ?_, ?_⟩
  · intro L t hside hq
    obtain ⟨tk, side, price, qty⟩ := t
    cases side with
    | BUY => simp at hside
    | SELL =>
        simp only at hq
        simp [ledgerApply, applyTrade, if_pos hq]
  · intro L t e he
    cases happ : applyTrade L.portfolio t with
    | ok q => simp [ledgerApply, happ] at he
    | error r => simp [ledgerApply, happ]
  · intro L t hn
    cases happ : applyTrade L.portfolio t with
    | ok q => exact ⟨q, rfl, by simp [ledgerApply, happ]⟩
    | error r => simp [ledgerApply, happ] at hn

theorem sell_insufficient_rejected_and_atomic_witness :
    ledgerApply
      { portfolio :=
          { cashBalance := 100, holdings := [("XYZ", { quantity := 5, averageCost := 10 })] },
        history := [] }
      { ticker := "XYZ", side := Side.SELL, price := 11, quantity := 7 }
      = ({ portfolio :=
            { cashBalance := 100, holdings := [("XYZ", { quantity := 5, averageCost := 10 })] },
           history := [] }, some RejectReason.InsufficientHoldings) :=
  sell_insufficient_rejected_and_atomic.1
    { portfolio :=
        { cashBalance := 100, holdings := [("XYZ", { quantity := 5, averageCost := 10 })] },
      history := [] }
    { ticker := "XYZ", side := Side.SELL, price := 11, quantity := 7 }
    rfl (by norm_num [lookupHolding])

/-! ## AI consultation router (spec §4.5) -/

/-- Modelled from the spec: AI decision, `decision ∈ \x7bBUY, SELL, HOLD, TRACK\x7d`
(§3 AIOpinion). -/
inductive Decision
  | BUY
  | SELL
  | HOLD
  | TRACK
deriving DecidableEq, Repr

/-- Modelled from the spec: the AIOpinion fields the router claims concern —
decision, confidence and the provider that produced the used answer (§3). -/
structure AIOpinion where
  decision : Decision
  confidence : ℚ
  providerUsed : Option String
deriving DecidableEq, Repr

/-- Modelled from the spec: outcome of one provider attempt — failure by
timeout, malformed (or incompletely parseable) response, or quota error, or a
valid parseable decision (§4.5). -/
inductive ProviderOutcome
  | timeout
  | malformed
  | quota
  | parsed (decision : Decision) (confidence : ℚ)
deriving DecidableEq, Repr

/-- Modelled from the spec: one configured provider, with the outcome its call
produces and the wall-clock time the attempt consumes. -/
structure Provider where
  name : String
  outcome : ProviderOutcome
  duration : ℚ
deriving DecidableEq, Repr

/-- Whether a provider attempt yields a valid parseable response. -/
def outcomeSucceeds : ProviderOutcome → Bool
  | ProviderOutcome.parsed _ _ => true
  | _ => false

/-- Modelled from the spec: the synthetic fail-open opinion
`AIOpinion\x7bdecision: HOLD, confidence: 0, providerUsed: null\x7d` (§4.5). -/
def syntheticOpinion : AIOpinion :=
  { decision := Decision.HOLD, confidence := 0, providerUsed := none }

/-- Modelled from the spec: the router's ordered fallback loop (§4.5, and the
`ai_engine.py` loop quoted in the performance report): attempt providers
strictly in order, advance on any failure with no back-off, stop with the
first valid parsed response; a global consultation budget caps total time, and
an exhausted budget or an exhausted provider list returns the synthetic HOLD
opinion. -/
def consultRouter (budget : ℚ) : List Provider → AIOpinion
  | [] => syntheticOpinion
  | p :: rest =>
      if budget ≤ 0 then syntheticOpinion
      else
        match p.outcome with
        | ProviderOutcome.parsed d c =>
            { decision := d, confidence := c, providerUsed := some p.name }
        | _ => consultRouter (budget - p.duration) rest

theorem consultRouter_budget_exhausted (budget : ℚ) (ps : List Provider)
    (h : budget ≤ 0) : consultRouter budget ps = syntheticOpinion := by
  cases ps with
  | nil => rfl
  | cons p rest => simp [consultRouter, h]

theorem consultRouter_skips_failure (budget : ℚ) (p : Provider) (rest : List Provider)
    (hfail : outcomeSucceeds p.outcome = false) (hb : ¬ budget ≤ 0) :
    consultRouter budget (p :: rest) = consultRouter (budget - p.duration) rest := by
  cases ho : p.outcome with
  | timeout => simp [consultRouter, hb, ho]
  | malformed => simp [consultRouter, hb, ho]
  | quota => simp [consultRouter, hb, ho]
  | parsed d c => simp [outcomeSucceeds, ho] at hfail

/-- C3: the router attempts providers strictly in order — if provider #1
fails and provider #2 returns a valid parseable response (within budget), the
output is provider #2's parsed decision with `providerUsed` = provider #2;
if every provider fails, or the budget is exhausted by a failing run of
providers before any success, the result is the synthetic AIOpinion with
decision HOLD, confidence 0 and providerUsed none. -/
theorem consult_router_fallback_spec :
    (∀ (budget : ℚ) (p1 p2 : Provider) (rest : List Provider) (d : Decision) (c : ℚ),
        outcomeSucceeds p1.outcome = false →
        p2.outcome = ProviderOutcome.parsed d c →
        0 < budget → 0 < budget - p1.duration →
        consultRouter budget (p1 :: p2 :: rest) =
          { decision := d, confidence := c, providerUsed := some p2.name })
    ∧ (∀ (budget : ℚ) (ps : List Provider),
        (∀ p ∈ ps, outcomeSucceeds p.outcome = false) →
        consultRouter budget ps =
          { decision := Decision.HOLD, confidence := 0, providerUsed := none })
    ∧ (∀ (budget : ℚ) (pre rest : List Provider),
        (∀ p ∈ pre, outcomeSucceeds p.outcome = false) →
        budget ≤ (pre.map Provider.duration).sum →
        consultRouter budget (pre ++ rest) =
          { decision := Decision.HOLD, confidence := 0, providerUsed := none }) := by
  refine ⟨?_, ?_, ?_⟩
  · intro budget p1 p2 rest d c hfail hok hb1 hb2
    rw [consultRouter_skips_failure budget p1 (p2 :: rest) hfail (not_le.mpr hb1)]
    simp [consultRouter, not_le.mpr hb2, hok]
  · intro budget ps hall
    induction ps generalizing budget with
    | nil => rfl
    | cons p rest ih =>
        by_cases hb : budget ≤ 0
        · exact consultRouter_budget_exhausted budget _ hb
        · rw [consultRouter_skips_failure budget p rest (hall p (by simp)) hb]
          exact ih (budget - p.duration) (fun u hu => hall u (List.mem_cons_of_mem _ hu))
  · intro budget pre rest hall hbudget
    induction pre generalizing budget with
    | nil =>
        simp only [List.map_nil, List.sum_nil] at hbudget
        simpa using consultRouter_budget_exhausted budget rest hbudget
    | cons p pre ih =>
        by_cases hb : budget ≤ 0
        · exact consultRouter_budget_exhausted budget _ hb
        · rw [List.cons_append,
            consultRouter_skips_failure budget p (pre ++ rest) (hall p (by simp)) hb]
          refine ih (budget - p.duration)
            (fun u hu => hall u (List.mem_cons_of_mem _ hu)) ?_
          simp only [List.map_cons, List.sum_cons] at hbudget
          linarith

theorem consult_router_fallback_spec_witness :
    (consultRouter 10
      [{ name := "gemini-2.0-flash", outcome := ProviderOutcome.timeout, duration := 3 },
       { name := "gemini-1.5-pro",
         outcome := ProviderOutcome.parsed Decision.BUY 70, duration := 2 }]
      = { decision := Decision.BUY, confidence := 70, providerUsed := some "gemini-1.5-pro" })
    ∧ (consultRouter 10
        [{ name := "gemini-2.0-flash", outcome := ProviderOutcome.timeout, duration := 3 },
         { name := "gpt-4o-mini", outcome := ProviderOutcome.quota, duration := 2 }]
        = { decision := Decision.HOLD, confidence := 0, providerUsed := none })
    ∧ (consultRouter 4
        ([{ name := "gemini-2.0-flash", outcome := ProviderOutcome.timeout, duration := 5 }] ++
         [{ name := "claude-3-haiku",
            outcome := ProviderOutcome.parsed Decision.SELL 80, duration := 1 }])
        = { decision := Decision.HOLD, confidence := 0, providerUsed := none }) :=
  ⟨consult_router_fallback_spec.1 10
      { name := "gemini-2.0-flash", outcome := ProviderOutcome.timeout, duration := 3 }
      { name := "gemini-1.5-pro",
        outcome := ProviderOutcome.parsed Decision.BUY 70, duration := 2 }
      [] Decision.BUY 70 rfl rfl (by norm_num) (by norm_num),
   consult_router_fallback_spec.2.1 10
      [{ name := "gemini-2.0-flash", outcome := ProviderOutcome.timeout, duration := 3 },
       { name := "gpt-4o-mini", outcome := ProviderOutcome.quota, duration := 2 }]
      (by
        intro p hp
        simp only [List.mem_cons, List.not_mem_nil, or_false] at hp
        rcases hp with h | h <;> subst h <;> rfl),
   consult_router_fallback_spec.2.2 4
      [{ name := "gemini-2.0-flash", outcome := ProviderOutcome.timeout, duration := 5 }]
      [{ name := "claude-3-haiku",
         outcome := ProviderOutcome.parsed Decision.SELL 80, duration := 1 }]
      (by
        intro p hp
        simp only [List.mem_cons, List.not_mem_nil, or_false] at hp
        subst hp; rfl)
      (by norm_num)⟩

/-! ## Kelly-style sizing (spec §4.6 step 2) -/

/-- Modelled from the spec: the unclamped Kelly fraction
`(p·b − (1−p)) / b` for win probability `p` and reward:risk `b` (§4.6). -/
def kellyUnclamped (p b : ℚ) : ℚ :=
  (p * b - (1 - p)) / b

/-- Modelled from the spec: the clamped Kelly-style position fraction
`f = max(0, min(fMax, (p·b − (1−p)) / b))` (§4.6 step 2). -/
def kellyFraction (fMax p b : ℚ) : ℚ :=
  max 0 (min fMax (kellyUnclamped p b))

/-- C4: the Kelly-style position fraction equals
`max(0, min(fMax, (p·b − (1−p))/b))`; at p = 0.6, b = 2 the unclamped value
is exactly 0.4, so for fMax < 0.4 the returned fraction is fMax; and for any
nonnegative cap the result lies in [0, fMax]. -/
theorem kelly_fraction_spec :
    (∀ p b fMax : ℚ, kellyFraction fMax p b = max 0 (min fMax ((p * b - (1 - p)) / b)))
    ∧ kellyUnclamped (3/5) 2 = 2/5
    ∧ (∀ fMax : ℚ, 0 ≤ fMax → fMax < 2/5 → kellyFraction fMax (3/5) 2 = fMax)
    ∧ (∀ p b fMax : ℚ, 0 ≤ fMax →
        0 ≤ kellyFraction fMax p b ∧ kellyFraction fMax p b ≤ fMax) := by
  refine ⟨fun p b fMax => rfl, by norm_num [kellyUnclamped], ?_, ?_⟩
  · intro fMax h0 hlt
    have hu : kellyUnclamped (3/5) 2 = 2/5 := by norm_num [kellyUnclamped]
    rw [kellyFraction, hu, min_eq_left hlt.le, max_eq_right h0]
  · intro p b fMax h0
    constructor
    · exact le_max_left 0 _
    · exact max_le h0 (min_le_left _ _)

theorem kelly_fraction_spec_witness :
    (kellyFraction (1/5) (3/5) 2 = max 0 (min (1/5) (((3:ℚ)/5 * 2 - (1 - 3/5)) / 2)))
    ∧ kellyUnclamped (3/5) 2 = 2/5
    ∧ kellyFraction (1/5) (3/5) 2 = 1/5
    ∧ (0 ≤ kellyFraction (1/5) (3/5) 2 ∧ kellyFraction (1/5) (3/5) 2 ≤ 1/5) :=
  ⟨kelly_fraction_spec.1 (3/5) 2 (1/5),
   kelly_fraction_spec.2.1,
   kelly_fraction_spec.2.2.1 (1/5) (by norm_num) (by norm_num),
   kelly_fraction_spec.2.2.2 (3/5) 2 (1/5) (by norm_num)⟩

/-! ## Execution scheduler (spec §4.7) -/

/-- Modelled from the spec: one child order of an ExecutionPlan,
`\x7btimeOffset, childQty\x7d` (§3). -/
structure ChildOrder where
  timeOffset : ℕ
  childQty : ℕ
deriving DecidableEq, Repr

/-- Modelled from the spec: scheduler configuration — the impact threshold
below which an order executes as a single fill, and the configured number of
time slices for large orders (§4.7). -/
structure SchedulerConfig where
  impactThreshold : ℕ
  numSlices : ℕ
deriving DecidableEq, Repr

/-- Modelled from the spec: front-loaded split of `Q` shares into `k` slices —
the first slice also takes the division remainder (§4.7, "equal or
front-loaded time slices"). -/
def sliceQuantities (k Q : ℕ) : List ℕ :=
  (Q / k + Q % k) :: List.replicate (k - 1) (Q / k)

/-- Slice quantities paired with consecutive time offsets. -/
def childSeq : ℕ → List ℕ → List ChildOrder
  | _, [] => []
  | i, q :: qs => { timeOffset := i, childQty := q } :: childSeq (i + 1) qs

/-- Modelled from the spec: the execution scheduler (§4.7) — an order at or
below the impact threshold becomes a single immediate fill; a larger order is
split into at most `numSlices` (and at most `Q`) front-loaded slices. -/
def buildExecutionPlan (cfg : SchedulerConfig) (Q : ℕ) : List ChildOrder :=
  if Q ≤ cfg.impactThreshold then
    [{ timeOffset := 0, childQty := Q }]
  else
    childSeq 0 (sliceQuantities (max 1 (min cfg.numSlices Q)) Q)

theorem sliceQuantities_sum (k Q : ℕ) (hk : 0 < k) : (sliceQuantities k Q).sum = Q := by
  cases k with
  | zero => exact absurd hk (by simp)
  | succ n =>
      simp only [sliceQuantities, List.sum_cons, List.sum_replicate, smul_eq_mul,
        Nat.succ_sub_one]
      have hmod := Nat.div_add_mod Q (n + 1)
      have hsucc : (n + 1) * (Q / (n + 1)) = n * (Q / (n + 1)) + Q / (n + 1) :=
        Nat.succ_mul _ _
      linarith

theorem sliceQuantities_pos (k Q : ℕ) (hk : 0 < k) (hkQ : k ≤ Q) :
    ∀ q ∈ sliceQuantities k Q, 0 < q := by
  intro q hq
  have hdiv : 0 < Q / k := Nat.div_pos hkQ hk
  simp only [sliceQuantities, List.mem_cons] at hq
  rcases hq with h | h
  · subst h
    exact Nat.lt_of_lt_of_le hdiv (Nat.le_add_right _ _)
  · rw [List.eq_of_mem_replicate h]
    exact hdiv

theorem childSeq_map_childQty (i : ℕ) (qs : List ℕ) :
    (childSeq i qs).map ChildOrder.childQty = qs := by
  induction qs generalizing i with
  | nil => rfl
  | cons q qs ih => simp [childSeq, ih]

theorem childSeq_mem_childQty (i : ℕ) (qs : List ℕ) (c : ChildOrder)
    (h : c ∈ childSeq i qs) : c.childQty ∈ qs := by
  induction qs generalizing i with
  | nil => simp [childSeq] at h
  | cons q qs ih =>
      simp only [childSeq, List.mem_cons] at h
      rcases h with h | h
      · subst h; simp
      · exact List.mem_cons_of_mem _ (ih (i + 1) h)

/-- C5: for every approved quantity Q > 0, the ExecutionPlan's child
quantities sum exactly to Q and every child quantity is strictly positive. -/
theorem execution_plan_sums_exactly (cfg : SchedulerConfig) (Q : ℕ) (hQ : 0 < Q) :
    ((buildExecutionPlan cfg Q).map ChildOrder.childQty).sum = Q
    ∧ ∀ c ∈ buildExecutionPlan cfg Q, 0 < c.childQty := by
  unfold buildExecutionPlan
  split
  · constructor
    · simp
    · intro c hc
      simp only [List.mem_singleton] at hc
      subst hc
      simpa using hQ
  · have hk0 : 0 < max 1 (min cfg.numSlices Q) := lt_of_lt_of_le Nat.zero_lt_one (le_max_left 1 _)
    have hkQ : max 1 (min cfg.numSlices Q) ≤ Q := by
      have h1 : min cfg.numSlices Q ≤ Q := min_le_right _ _
      omega
    constructor
    · rw [childSeq_map_childQty]
      exact sliceQuantities_sum _ Q hk0
    · intro c hc
      exact sliceQuantities_pos _ Q hk0 hkQ c.childQty (childSeq_mem_childQty 0 _ c hc)

theorem execution_plan_sums_exactly_witness :
    ((buildExecutionPlan { impactThreshold := 10, numSlices := 4 } 25).map
        ChildOrder.childQty).sum = 25
    ∧ ∀ c ∈ buildExecutionPlan { impactThreshold := 10, numSlices := 4 } 25,
        0 < c.childQty :=
  execution_plan_sums_exactly { impactThreshold := 10, numSlices := 4 } 25 (by norm_num)

/-! ## Mean-reversion gate (spec §4.3) -/

/-- Modelled from the spec: the default z-score threshold, 2.0 (§4.3). -/
def defaultZThreshold : ℚ := 2

/-- Modelled from the spec: the mean-reversion gate (§4.3) — given the fitted
z-score, reject a BUY exactly when `z > zThreshold` and reject a SELL exactly
when `z < −zThreshold`; the opposite-direction trade is never vetoed. -/
def meanRevRejects (zThreshold z : ℚ) : Side → Bool
  | Side.BUY => decide (zThreshold < z)
  | Side.SELL => decide (z < -zThreshold)

/-- C6: the gate rejects a BUY exactly when z > zThreshold and a SELL exactly
when z < −zThreshold; at z = 3.0 with the default threshold 2.0 a BUY is
rejected and a SELL is not. -/
theorem mean_reversion_gate_spec :
    (∀ zThreshold z : ℚ,
        (meanRevRejects zThreshold z Side.BUY = true ↔ zThreshold < z)
        ∧ (meanRevRejects zThreshold z Side.SELL = true ↔ z < -zThreshold))
    ∧ meanRevRejects defaultZThreshold 3 Side.BUY = true
    ∧ meanRevRejects defaultZThreshold 3 Side.SELL = false := by
  refine ⟨fun thr z => ⟨?_, ?_⟩, ?_, ?_⟩
  · simp [meanRevRejects]
  · simp [meanRevRejects]
  · simp only [meanRevRejects, defaultZThreshold, decide_eq_true_eq]
    norm_num
  · simp only [meanRevRejects, defaultZThreshold, decide_eq_false_iff_not, not_lt]
    norm_num

/-! ## Serialized risk and execution stage (spec §5, §8) -/

/-- Modelled from the spec: the outcome of one ticker's serialized risk check —
full approval, down-sizing to the remaining cash, or rejection (§5, §8
concurrent-cycle scenario). -/
inductive OrderOutcome
  | approvedFull
  | downsized (cost : ℚ)
  | rejectedNoCash
deriving DecidableEq, Repr

/-- Modelled from the spec: one approved BUY order of the given cost checked
against the remaining cash snapshot — affordable orders are approved in full
and deduct their cost, unaffordable orders are down-sized to the remaining
cash when some remains, else rejected (§5, §8). -/
def processOrder (cash cost : ℚ) : OrderOutcome × ℚ :=
  if cost ≤ cash then (OrderOutcome.approvedFull, cash - cost)
  else if 0 < cash then (OrderOutcome.downsized cash, 0)
  else (OrderOutcome.rejectedNoCash, cash)

/-- Modelled from the spec: the serialized risk+execution stage — orders are
processed strictly one after another against the monotonically updated cash
snapshot (§5). -/
def serializeOrders (cash : ℚ) : List ℚ → List OrderOutcome
  | [] => []
  | c :: cs =>
      (processOrder cash c).1 :: serializeOrders (processOrder cash c).2 cs

/-- C7: when two tickers each produce an approved BUY exceeding 60% of
available cash (the first one still affordable), the serialized stage approves
the first in full and down-sizes the second to the remaining cash or rejects
it — it never approves both at face value. -/
theorem serialized_risk_no_double_spend (cash c1 c2 : ℚ)
    (hcash : 0 < cash) (h1 : 3/5 * cash < c1) (h2 : 3/5 * cash < c2)
    (hfeas : c1 ≤ cash) :
    ∃ o2, serializeOrders cash [c1, c2] = [OrderOutcome.approvedFull, o2]
      ∧ o2 ≠ OrderOutcome.approvedFull
      ∧ (o2 = OrderOutcome.downsized (cash - c1) ∨ o2 = OrderOutcome.rejectedNoCash) := by
  have hrem : cash - c1 < c2 := by linarith
  by_cases hpos : 0 < cash - c1
  · refine ⟨OrderOutcome.downsized (cash - c1), ?_, by simp, Or.inl rfl⟩
    simp [serializeOrders, processOrder, if_pos hfeas, if_neg (not_le.mpr hrem), if_pos hpos]
    rw [if_pos (sub_pos.mp hpos)]
  · refine ⟨OrderOutcome.rejectedNoCash, ?_, by simp, Or.inr rfl⟩
    simp [serializeOrders, processOrder, if_pos hfeas, if_neg (not_le.mpr hrem), if_neg hpos]
    rw [if_neg (fun hc => hpos (sub_pos.mpr hc))]

theorem serialized_risk_no_double_spend_witness :
    ∃ o2, serializeOrders 100 [70, 65] = [OrderOutcome.approvedFull, o2]
      ∧ o2 ≠ OrderOutcome.approvedFull
      ∧ (o2 = OrderOutcome.downsized (100 - 70) ∨ o2 = OrderOutcome.rejectedNoCash) :=
  serialized_risk_no_double_spend 100 70 65 (by norm_num) (by norm_num) (by norm_num)
    (by norm_num)

/-! ## Signal ambiguity and consultation gating (spec §4.4, §4.5) -/

/-- Modelled from the spec: the component scores entering the Signal
Aggregator (§4.4); a component's direction is the sign of its score, a zero
score is a HOLD component. -/
structure ComponentScores where
  technical : ℚ
  pattern : ℚ
  microstructure : ℚ
deriving DecidableEq, Repr

/-- Modelled from the spec: the default consultation threshold, 60 (§4.4). -/
def defaultConsultThreshold : ℚ := 60

/-- Modelled from the spec: the non-HOLD component directions disagree in sign
when some component score is positive and some is negative (§4.4). -/
def directionsDisagree (c : ComponentScores) : Bool :=
  (decide (0 < c.technical) || decide (0 < c.pattern) || decide (0 < c.microstructure))
    && (decide (c.technical < 0) || decide (c.pattern < 0) || decide (c.microstructure < 0))

/-- Modelled from the spec: the aggregated Signal restricted to the fields the
ambiguity claim concerns (§3). -/
structure Signal where
  confidence : ℚ
  components : ComponentScores
  ambiguous : Bool
deriving DecidableEq, Repr

/-- Modelled from the spec: the Signal Aggregator sets
`ambiguous = (confidence < consultThreshold) OR directions disagree` (§4.4). -/
def mkSignal (consultThreshold confidence : ℚ) (c : ComponentScores) : Signal :=
  { confidence := confidence, components := c,
    ambiguous := decide (confidence < consultThreshold) || directionsDisagree c }

/-- Modelled from the spec: the orchestrator invokes the AI Consultation
Router for a ticker exactly when its Signal is ambiguous (§4.5, §4.9). -/
def maybeConsult (budget : ℚ) (ps : List Provider) (s : Signal) : Option AIOpinion :=
  if s.ambiguous then some (consultRouter budget ps) else none

/-- C8: a Signal built by the aggregator is ambiguous exactly when its
confidence is below the consultation threshold (default 60) or the non-HOLD
component directions disagree in sign, and the AI Consultation Router is
invoked for a ticker exactly when its Signal is ambiguous. -/
theorem ambiguity_gates_consultation :
    (∀ (budget : ℚ) (ps : List Provider) (s : Signal),
        (maybeConsult budget ps s).isSome = true ↔ s.ambiguous = true)
    ∧ (∀ (thr conf : ℚ) (c : ComponentScores),
        (mkSignal thr conf c).ambiguous = true ↔
          (conf < thr ∨
            ((0 < c.technical ∨ 0 < c.pattern ∨ 0 < c.microstructure)
              ∧ (c.technical < 0 ∨ c.pattern < 0 ∨ c.microstructure < 0))))
    ∧ defaultConsultThreshold = 60 := by
  refine ⟨?_, ?_, rfl⟩
  · intro budget ps s
    by_cases h : s.ambiguous <;> simp [maybeConsult, h]
  · intro thr conf c
    simp only [mkSignal, directionsDisagree, Bool.or_eq_true, Bool.and_eq_true,
      decide_eq_true_eq]
    tauto

/-! ## NewsFeed component (frontend/src/components/NewsFeed.jsx) -/

/-- One news item as consumed by the NewsFeed component: title, source,
publication time (milliseconds since epoch, as a JS Date value) and
sentiment tag. -/
structure NewsItem where
  title : String
  source : String
  published : Int
  sentiment : String
deriving DecidableEq, Repr

/-- The three hard-coded placeholder articles of `NewsFeed.jsx` lines 59-78,
with `now` standing for `Date.now()` at render time. -/
def mockNews (now : Int) : List NewsItem :=
  [{ title := "Tesla deliveries beat expectations for Q3", source := "CNBC",
     published := now, sentiment := "positive" },
   { title := "EV sector sees strong momentum amid policy support", source := "Reuters",
     published := now - 3600000, sentiment := "positive" },
   { title := "Swedish market opens strong following EU data", source := "Di.se",
     published := now - 7200000, sentiment := "neutral" }]

/-- The `displayNews` computation of `NewsFeed.jsx` line 59:
`news.length > 0 ? news : [...mock articles]`. -/
def displayNews (now : Int) (news : List NewsItem) : List NewsItem :=
  if 0 < news.length then news else mockNews now

/-- What the NewsFeed renders: the loading skeleton, or the feed of
`displayNews` items with the footer article count
(`displayNews.length` at lines 251-254). -/
inductive NewsFeedView
  | skeleton
  | feed (items : List NewsItem) (footerCount : ℕ)
deriving DecidableEq, Repr

/-- The NewsFeed render function: the `loading` early return at line 80,
else the feed over `displayNews` with the footer count. -/
def renderNewsFeed (loading : Bool) (now : Int) (news : List NewsItem) : NewsFeedView :=
  if loading then NewsFeedView.skeleton
  else NewsFeedView.feed (displayNews now news) (displayNews now news).length

/-- C9: a non-loading render with an empty news list displays exactly the
three hard-coded placeholder articles and reports 3 in the footer; a
non-loading render with a non-empty news list displays exactly the provided
items — an empty news input is never rendered as an empty feed. -/
theorem newsfeed_empty_shows_placeholders (now : Int) :
    (renderNewsFeed false now [] = NewsFeedView.feed (mockNews now) 3
      ∧ (mockNews now).length = 3)
    ∧ ∀ news : List NewsItem, news ≠ [] →
        renderNewsFeed false now news = NewsFeedView.feed news news.length := by
  refine ⟨⟨by simp [renderNewsFeed, displayNews, mockNews], by simp [mockNews]⟩, ?_⟩
  intro news hne
  have hlen : 0 < news.length := List.length_pos.mpr hne
  simp [renderNewsFeed, displayNews, hlen]

theorem newsfeed_empty_shows_placeholders_witness :
    (renderNewsFeed false 1700000000000 [] = NewsFeedView.feed (mockNews 1700000000000) 3
      ∧ (mockNews 1700000000000).length = 3)
    ∧ renderNewsFeed false 1700000000000
        [{ title := "Markets rally", source := "Reuters",
           published := 1700000000000, sentiment := "positive" }]
      = NewsFeedView.feed
          [{ title := "Markets rally", source := "Reuters",
             published := 1700000000000, sentiment := "positive" }] 1 := by
  refine ⟨(newsfeed_empty_shows_placeholders 1700000000000).1, ?_⟩
  have h := (newsfeed_empty_shows_placeholders 1700000000000).2
    [{ title := "Markets rally", source := "Reuters",
       published := 1700000000000, sentiment := "positive" }]
    (by simp)
  simpa using h

/-! ## TransactionHistory component (frontend/src/components/TransactionHistory.jsx) -/

/-- One trade row as consumed by the TransactionHistory component: ticker,
type ("BUY"/"SELL"), price, quantity, timestamp (milliseconds, as a JS Date
value) and profit. -/
structure TradeRecord where
  ticker : String
  type : String
  price : ℚ
  qty : ℚ
  timestamp : Int
  profit : ℚ
deriving DecidableEq, Repr

/-- The `sortedTrades` computation of `TransactionHistory.jsx` line 14:
`[...trades].sort((a, b) => new Date(b.timestamp) - new Date(a.timestamp))` —
a copy of the prop sorted by descending timestamp. -/
def sortedTrades (trades : List TradeRecord) : List TradeRecord :=
  trades.mergeSort (fun a b => decide (b.timestamp ≤ a.timestamp))

/-- What the TransactionHistory render produces: the rendered table rows, and
the list the `trades` prop still refers to after rendering.  The JSX sorts
the spread copy `[...trades]`, never the prop itself, so the prop is returned
untouched; the empty-trades branch (lines 4-11) renders no rows. -/
structure TransactionHistoryView where
  rows : List TradeRecord
  tradesProp : List TradeRecord
deriving DecidableEq, Repr

/-- The TransactionHistory render function embedded from the JSX. -/
def renderTransactionHistory (trades : List TradeRecord) : TransactionHistoryView :=
  if trades.isEmpty then { rows := [], tradesProp := trades }
  else { rows := sortedTrades trades, tradesProp := trades }

/-- C10: for every non-empty trades list, the rendered rows are a permutation
of the input sorted in non-increasing timestamp order, and the trades prop
itself is left unchanged — the component sorts a copy, never the prop. -/
theorem transaction_history_sorted_copy (trades : List TradeRecord)
    (hne : trades ≠ []) :
    (renderTransactionHistory trades).rows.Perm trades
    ∧ List.Pairwise (fun a b => b.timestamp ≤ a.timestamp)
        (renderTransactionHistory trades).rows
    ∧ (renderTransactionHistory trades).tradesProp = trades := by
  have hnot : ¬ trades.isEmpty := by simpa using hne
  refine ⟨?_, ?_, ?_⟩
  · simpa [renderTransactionHistory, hnot, sortedTrades] using
      List.mergeSort_perm trades (fun a b => decide (b.timestamp ≤ a.timestamp))
  · have h := @List.sorted_mergeSort TradeRecord
      (fun a b : TradeRecord => decide (b.timestamp ≤ a.timestamp))
      (fun a b c hab hbc => by
        simp only [decide_eq_true_eq] at *
        exact le_trans hbc hab)
      (fun a b => by simpa using Int.le_total b.timestamp a.timestamp)
      trades
    simpa [renderTransactionHistory, hnot, sortedTrades] using h
  · simp [renderTransactionHistory, hnot]

theorem transaction_history_sorted_copy_witness :
    (renderTransactionHistory
        [{ ticker := "TSLA", type := "BUY", price := 250, qty := 2,
           timestamp := 1000, profit := 0 },
         { ticker := "AAPL", type := "SELL", price := 180, qty := 1,
           timestamp := 5000, profit := 12 }]).rows.Perm
      [{ ticker := "TSLA", type := "BUY", price := 250, qty := 2,
         timestamp := 1000, profit := 0 },
       { ticker := "AAPL", type := "SELL", price := 180, qty := 1,
         timestamp := 5000, profit := 12 }]
    ∧ List.Pairwise (fun a b => b.timestamp ≤ a.timestamp)
        (renderTransactionHistory
          [{ ticker := "TSLA", type := "BUY", price := 250, qty := 2,
             timestamp := 1000, profit := 0 },
           { ticker := "AAPL", type := "SELL", price := 180, qty := 1,
             timestamp := 5000, profit := 12 }]).rows
    ∧ (renderTransactionHistory
        [{ ticker := "TSLA", type := "BUY", price := 250, qty := 2,
           timestamp := 1000, profit := 0 },
         { ticker := "AAPL", type := "SELL", price := 180, qty := 1,
           timestamp := 5000, profit := 12 }]).tradesProp
      = [{ ticker := "TSLA", type := "BUY", price := 250, qty := 2,
           timestamp := 1000, profit := 0 },
         { ticker := "AAPL", type := "SELL", price := 180, qty := 1,
           timestamp := 5000, profit := 12 }] :=
  transaction_history_sorted_copy
    [{ ticker := "TSLA", type := "BUY", price := 250, qty := 2,
       timestamp := 1000, profit := 0 },
     { ticker := "AAPL", type := "SELL", price := 180, qty := 1,
       timestamp := 5000, profit := 12 }]
    (by simp)

end DayTradingAI
